import Mathlib

/-!
Verification development for the s3-purge-bucket tool (main.go).
The Go program is shallowly embedded: the S3 client is replaced by
scripted inputs (listing pages, delete responses), `log.Fatalf` by a
`fatal` outcome, and the go-metrics counters by an explicit `Stat`
record threaded through each function.
-/

/-- The single transient provider error code (main.go line 37). -/
def internalErrorCode : String := "InternalError"

/-- s3.ObjectIdentifier: Key and VersionId are string pointers in the SDK,
embedded as `Option String`. -/
structure ObjectIdentifier where
  key : Option String
  versionId : Option String
deriving DecidableEq, Repr

/-- One record of a listing page (an s3.ObjectVersion or s3.DeleteMarkerEntry);
only Key and VersionId are read by the program. -/
structure VersionRecord where
  key : Option String
  versionId : Option String
deriving DecidableEq, Repr

/-- One page of ListObjectVersions results. -/
structure Page where
  versions : List VersionRecord
  deleteMarkers : List VersionRecord
deriving DecidableEq, Repr

/-- The identifier built from a listed record (main.go lines 98-101, 104-107):
Key and VersionId are copied unchanged. -/
def VersionRecord.toIdentifier (r : VersionRecord) : ObjectIdentifier :=
  { key := r.key, versionId := r.versionId }

/-- The objects slice a lister builds from one page (main.go lines 96-108):
versions first, then delete markers, both mapped identically. -/
def pageObjects (p : Page) : List ObjectIdentifier :=
  p.versions.map VersionRecord.toIdentifier ++ p.deleteMarkers.map VersionRecord.toIdentifier

/-- The five go-metrics counters (main.go lines 48-60), as exact integers. -/
structure Stat where
  listed : Int
  requests : Int
  queued : Int
  deletesPending : Int
  deleted : Int
deriving DecidableEq, Repr

/-- All counters start at zero. -/
def stat0 : Stat := ⟨0, 0, 0, 0, 0⟩

/-- deleteRequest (main.go lines 63-66). -/
structure DeleteRequest where
  bucket : String
  objects : List ObjectIdentifier
deriving DecidableEq, Repr

/-- An AWS error value: `code = some c` means the error is an awserr.Error
with code `c`; `code = none` means it carries no machine-readable code. -/
structure AwsError where
  code : Option String
  message : String
deriving DecidableEq, Repr

/-- A per-item error entry of a DeleteObjects response (s3.Error):
the program dereferences `*err.Code`, so the code is a plain string. -/
structure DeleteItemError where
  key : Option String
  versionId : Option String
  code : String
deriving DecidableEq, Repr

/-- The identifier rebuilt from a failed item (main.go lines 153-156). -/
def DeleteItemError.toIdentifier (e : DeleteItemError) : ObjectIdentifier :=
  { key := e.key, versionId := e.versionId }

/-- A DeleteObjects response body: the Deleted list and the Errors list. -/
structure DeleteOutput where
  deleted : List ObjectIdentifier
  errors : List DeleteItemError
deriving DecidableEq, Repr

/-- What one DeleteObjects call returns: a body, or a transport-level error. -/
inductive DeleteResponse where
  | ok (out : DeleteOutput)
  | transportErr (code : Option String) (message : String)
deriving DecidableEq, Repr

/-- Outcome of `deleteObjects` run against a finite script of responses:
`returned` is a normal Go return to the caller carrying the returned error;
`fatal` is `log.Fatalf` (process death); `pending` means the script was
exhausted while the function was about to issue one more request for the
given bucket and objects. -/
inductive DeleteOutcome where
  | returned (st : Stat) (err : Option AwsError)
  | fatal (st : Stat) (msg : String)
  | pending (st : Stat) (bucket : String) (objects : List ObjectIdentifier)
deriving DecidableEq, Repr

/-- Counter traffic around one DeleteObjects call (main.go lines 130, 137, 138):
deletesPending.Inc(1), then requests.Inc(1) and deletesPending.Dec(1). -/
def afterRequest (st : Stat) : Stat :=
  { st with requests := st.requests + 1,
            deletesPending := st.deletesPending + 1 - 1 }

/-- The retryable sublist of a response's per-item errors (main.go lines
150-158): items whose code equals internalErrorCode, rebuilt as identifiers. -/
def retryableOf (errors : List DeleteItemError) : List ObjectIdentifier :=
  (errors.filter (fun e => e.code == internalErrorCode)).map DeleteItemError.toIdentifier

/-- deleteObjects (main.go lines 129-167), with responses supplied by a
script consumed one per issued request. -/
def deleteObjects (st : Stat) (bucket : String) (objects : List ObjectIdentifier) :
    List DeleteResponse → DeleteOutcome
  | [] => .pending st bucket objects
  | resp :: rest =>
    let st := afterRequest st
    match resp with
    | .transportErr code msg =>
      if code = some internalErrorCode then
        deleteObjects st bucket objects rest
      else
        .fatal st ("error while deleting: " ++ msg)
    | .ok out =>
      let st := { st with deleted := st.deleted + out.deleted.length }
      if out.errors.length > 0 then
        if (retryableOf out.errors).length = out.errors.length then
          deleteObjects st bucket (retryableOf out.errors) rest
        else
          .fatal st "non-retryable errors while deleting"
      else
        .returned st none

/-- Result of processing one listing page in `lister`: the batch pushed onto
the queue (if any) and the updated counters. -/
structure PageStep where
  batch : Option DeleteRequest
  stat : Stat
deriving DecidableEq, Repr

/-- The per-page body of the lister's ListObjectVersionsPages callback
(main.go lines 94-120): count the request, build the objects slice, count
the listed items, and push a non-empty batch (counting it as queued). -/
def listerPage (bucket : String) (st : Stat) (p : Page) : PageStep :=
  let st := { st with requests := st.requests + 1 }
  let objects := pageObjects p
  let st := { st with listed := st.listed + objects.length }
  if objects.length > 0 then
    { batch := some { bucket := bucket, objects := objects },
      stat := { st with queued := st.queued + objects.length } }
  else
    { batch := none, stat := st }

/-- Folds `listerPage` over the pages a listing delivers, collecting the
batches pushed in order. -/
def listerPages (bucket : String) (st : Stat) : List Page → Stat × List DeleteRequest
  | [] => (st, [])
  | p :: rest =>
    let s := listerPage bucket st p
    let r := listerPages bucket s.stat rest
    (r.1, s.batch.toList ++ r.2)

/-- Outcome of a whole lister run: finished normally with the batches it
pushed, or dead via `log.Fatalf`. -/
inductive ListerOutcome where
  | finished (st : Stat) (batches : List DeleteRequest)
  | fatal (st : Stat) (msg : String)
deriving DecidableEq, Repr

/-- lister (main.go lines 87-127): pages are the pages the pagination
delivered; `listErr` is the error ListObjectVersionsPages finally returned
(none on clean exhaustion). An error is fatal with a message naming the
`bucket/pfx` target (lines 88, 123-125); there is no retry. -/
def listerRun (bucket pfx : String) (st : Stat) (pages : List Page)
    (listErr : Option AwsError) : ListerOutcome :=
  let r := listerPages bucket st pages
  match listErr with
  | some e =>
    ListerOutcome.fatal r.1 ("error while listing " ++ bucket ++ "/" ++ pfx ++ ": " ++ e.message)
  | none => ListerOutcome.finished r.1 r.2

/-- Outcome of a deleter worker run over the batches it receives (each
paired with the response script for its delete attempts). -/
inductive WorkerOutcome where
  | done (st : Stat)
  | fatalFromDeleteReturn (st : Stat) (msg : String)
  | fatalInDelete (st : Stat) (msg : String)
  | pendingDelete (st : Stat) (bucket : String) (objects : List ObjectIdentifier)
deriving DecidableEq, Repr

/-- deleter (main.go lines 169-177): for each received request, decrement
queued by the batch size and call deleteObjects; `fatalFromDeleteReturn` is
the `if err != nil { log.Fatalf(...) }` branch on the returned error
(lines 173-175). -/
def deleter (st : Stat) : List (DeleteRequest × List DeleteResponse) → WorkerOutcome
  | [] => .done st
  | (req, script) :: rest =>
    let st := { st with queued := st.queued - req.objects.length }
    match deleteObjects st req.bucket req.objects script with
    | .returned st2 err =>
      match err with
      | some e => .fatalFromDeleteReturn st2 ("error while deleting: " ++ e.message)
      | none => deleter st2 rest
    | .fatal st2 msg => .fatalInDelete st2 msg
    | .pending st2 b objs => .pendingDelete st2 b objs

/-- State of the shared work queue together with the queued counter and
ghost totals of everything ever pushed and popped. `buffered` holds the
sizes of the batches currently sitting in the channel, in FIFO order. -/
structure QueueState where
  buffered : List Nat
  queued : Int
  pushedTotal : Nat
  poppedTotal : Nat
deriving DecidableEq, Repr

/-- The queue starts empty with the queued counter at zero. -/
def initQueueState : QueueState := ⟨[], 0, 0, 0⟩

/-- Atomic queue events as the program performs them: a lister pushes a
non-empty batch after adding its size to queued (main.go lines 112-117);
a deleter pops the front batch and subtracts its size (lines 170-171). -/
inductive QueueStep : QueueState → QueueState → Prop
  | push (s : QueueState) (n : Nat) (hn : 0 < n) :
      QueueStep s { buffered := s.buffered ++ [n], queued := s.queued + n,
                    pushedTotal := s.pushedTotal + n, poppedTotal := s.poppedTotal }
  | pop (s : QueueState) (n : Nat) (rest : List Nat) (h : s.buffered = n :: rest) :
      QueueStep s { buffered := rest, queued := s.queued - n,
                    pushedTotal := s.pushedTotal, poppedTotal := s.poppedTotal + n }

/-- States reachable from the initial queue state by any interleaving of
pushes and pops. -/
def QueueReachable : QueueState → Prop := Relation.ReflTransGen QueueStep initQueueState

/-- Coordinator-level events of purgeBuckets, in program order. -/
inductive CoordEvent where
  | startLister (bucket pfx : String)
  | startDeleter (i : Nat)
  | waitListers
  | closeQueue
  | waitDeleters
  | deleteBucketCall (bucket : String)
deriving DecidableEq, Repr

/-- Whether an event merely spawns a goroutine. -/
def CoordEvent.isStart : CoordEvent → Bool
  | .startLister _ _ => true
  | .startDeleter _ => true
  | _ => false

/-- The prefix-list fixup (main.go lines 194-197): an empty expansion is
replaced by the single empty string. `prefixes` stands for the output of
gobrex.Expand on the -prefix flag, which is outside the core. -/
def expandPrefixes (prefixes : List String) : List String :=
  if prefixes = [] then [""] else prefixes

/-- The goroutine-spawning part of purgeBuckets (main.go lines 199-215):
one lister per bucket x expanded-prefix pair, then `workers` deleters. -/
def startEvents (buckets prefixes : List String) (workers : Nat) : List CoordEvent :=
  ((buckets.map (fun b =>
      (expandPrefixes prefixes).map (fun p => CoordEvent.startLister b p))).flatten)
  ++ (List.range workers).map CoordEvent.startDeleter

/-- purgeBuckets (main.go lines 190-223) as the sequence of coordinator
events it performs: spawn everything, listers.Wait(), close(queue),
deleters.Wait(), then one deleteBucket call per entry of `buckets`, in
order, in the single coordinator goroutine. -/
def purgeBucketsTrace (buckets prefixes : List String) (workers : Nat) : List CoordEvent :=
  startEvents buckets prefixes workers
  ++ (CoordEvent.waitListers :: CoordEvent.closeQueue :: CoordEvent.waitDeleters ::
      buckets.map CoordEvent.deleteBucketCall)

/-- How many bucket-delete calls for bucket `b` a trace performs. -/
def bucketDeleteCount (t : List CoordEvent) (b : String) : Nat :=
  t.count (CoordEvent.deleteBucketCall b)

/-- The command-line flags the program defines (main.go lines 42-44). -/
def flagNames : List String := ["workers", "prefix", "region"]

/-- The stat after one DeleteObjects call that got a response body: request
accounting plus the deleted-count increment (main.go line 147). -/
def afterResponse (st : Stat) (out : DeleteOutput) : Stat :=
  { afterRequest st with deleted := (afterRequest st).deleted + out.deleted.length }

/-- The size of the batch a page step pushed (0 when nothing was pushed). -/
def batchSizeOf (s : PageStep) : Nat :=
  match s.batch with
  | some r => r.objects.length
  | none => 0

/-- A listing page whose combined versions+markers count exceeds 1000. -/
def oversizedPage : Page :=
  { versions := List.replicate 1001 ⟨some "k", some "v"⟩, deleteMarkers := [] }

/-- Unfolding of deleteObjects on a transport-level failure (main.go
lines 140-145). -/
lemma deleteObjects_transport (st : Stat) (b : String) (objs : List ObjectIdentifier)
    (code : Option String) (msg : String) (rest : List DeleteResponse) :
    deleteObjects st b objs (DeleteResponse.transportErr code msg :: rest)
      = if code = some internalErrorCode
        then deleteObjects (afterRequest st) b objs rest
        else DeleteOutcome.fatal (afterRequest st) ("error while deleting: " ++ msg) := rfl

/-- Unfolding of deleteObjects on a transport-level success (main.go
lines 147-166). -/
lemma deleteObjects_ok (st : Stat) (b : String) (objs : List ObjectIdentifier)
    (out : DeleteOutput) (rest : List DeleteResponse) :
    deleteObjects st b objs (DeleteResponse.ok out :: rest)
      = if out.errors.length > 0 then
          if (retryableOf out.errors).length = out.errors.length then
            deleteObjects (afterResponse st out) b (retryableOf out.errors) rest
          else DeleteOutcome.fatal (afterResponse st out) "non-retryable errors while deleting"
        else DeleteOutcome.returned (afterResponse st out) none := rfl

/-- Every normal return of deleteObjects carries a nil error: all other
paths recurse or die via log.Fatalf. -/
lemma deleteObjects_returned_none :
    ∀ (script : List DeleteResponse) (st : Stat) (b : String)
      (objs : List ObjectIdentifier) (st2 : Stat) (e : Option AwsError),
      deleteObjects st b objs script = DeleteOutcome.returned st2 e → e = none := by
  intro script
  induction script with
  | nil =>
    intro st b objs st2 e h
    simp [deleteObjects] at h
  | cons resp rest ih =>
    intro st b objs st2 e h
    cases resp with
    | transportErr code msg =>
      rw [deleteObjects_transport] at h
      by_cases hc : code = some internalErrorCode
      · rw [if_pos hc] at h
        exact ih _ _ _ _ _ h
      · rw [if_neg hc] at h
        simp at h
    | ok out =>
      rw [deleteObjects_ok] at h
      by_cases h1 : out.errors.length > 0
      · rw [if_pos h1] at h
        by_cases h2 : (retryableOf out.errors).length = out.errors.length
        · rw [if_pos h2] at h
          exact ih _ _ _ _ _ h
        · rw [if_neg h2] at h
          simp at h
      · rw [if_neg h1] at h
        injection h with h1 h2
        exact h2.symm

/-- C2: a transport-level delete failure retries the whole batch unchanged
exactly when the error code is some internalErrorCode; any other transport
error is fatal; the retry is recursive with no backoff and no cap (any
number n of consecutive transient transport failures is retried through). -/
theorem transport_error_retry (st : Stat) (b : String) (objs : List ObjectIdentifier)
    (code : Option String) (msg : String) (rest : List DeleteResponse) :
    (code = some internalErrorCode →
      deleteObjects st b objs (DeleteResponse.transportErr code msg :: rest)
        = deleteObjects (afterRequest st) b objs rest)
  ∧ (code ≠ some internalErrorCode →
      deleteObjects st b objs (DeleteResponse.transportErr code msg :: rest)
        = DeleteOutcome.fatal (afterRequest st) ("error while deleting: " ++ msg))
  ∧ (∀ n : Nat,
      deleteObjects st b objs
        (List.replicate n (DeleteResponse.transportErr (some internalErrorCode) msg) ++ rest)
        = deleteObjects (afterRequest^[n] st) b objs rest) := by
  refine ⟨fun hc => ?_, fun hc => ?_, fun n => ?_⟩
  · rw [deleteObjects_transport, if_pos hc]
  · rw [deleteObjects_transport, if_neg hc]
  · induction n generalizing st with
    | zero => simp
    | succ k ih =>
      rw [List.replicate_succ, List.cons_append, deleteObjects_transport, if_pos rfl, ih,
        Function.iterate_succ_apply]

/-- Witness for transport_error_retry at concrete inputs. -/
theorem transport_error_retry_witness :
    (deleteObjects stat0 "b" [] [DeleteResponse.transportErr (some "InternalError") "m"]
      = deleteObjects (afterRequest stat0) "b" [] [])
  ∧ (deleteObjects stat0 "b" [] [DeleteResponse.transportErr none "m"]
      = DeleteOutcome.fatal (afterRequest stat0) ("error while deleting: " ++ "m")) :=
  ⟨(transport_error_retry stat0 "b" [] (some "InternalError") "m" []).1 rfl,
   (transport_error_retry stat0 "b" [] none "m" []).2.1 (by decide)⟩

/-- C1: when a delete response reports per-item errors, the worker resubmits
exactly the failed items through the same delete path when every error is
transient, and dies fatally when at least one error is non-transient. -/
theorem per_item_errors_policy (st : Stat) (b : String) (objs : List ObjectIdentifier)
    (out : DeleteOutput) (rest : List DeleteResponse) (h : out.errors ≠ []) :
    ((∀ e ∈ out.errors, e.code = internalErrorCode) →
      deleteObjects st b objs (DeleteResponse.ok out :: rest)
        = deleteObjects (afterResponse st out) b
            (out.errors.map DeleteItemError.toIdentifier) rest)
  ∧ ((∃ e ∈ out.errors, e.code ≠ internalErrorCode) →
      deleteObjects st b objs (DeleteResponse.ok out :: rest)
        = DeleteOutcome.fatal (afterResponse st out) "non-retryable errors while deleting") := by
  have hlen : out.errors.length > 0 := List.length_pos.mpr h
  constructor
  · intro hall
    have hfilter : out.errors.filter (fun e => e.code == internalErrorCode) = out.errors :=
      List.filter_eq_self.mpr (fun a ha => by simpa using hall a ha)
    have hr : retryableOf out.errors = out.errors.map DeleteItemError.toIdentifier := by
      rw [retryableOf, hfilter]
    rw [deleteObjects_ok, if_pos hlen, if_pos (by rw [hr]; simp), hr]
  · rintro ⟨e, he, hne⟩
    have hne' : (retryableOf out.errors).length ≠ out.errors.length := by
      rw [retryableOf, List.length_map]
      intro heq
      have := List.filter_length_eq_length.mp heq e he
      simp at this
      exact hne this
    rw [deleteObjects_ok, if_pos hlen, if_neg hne']

/-- Witness for per_item_errors_policy at concrete inputs. -/
theorem per_item_errors_policy_witness :
    (deleteObjects stat0 "b" []
        [DeleteResponse.ok ⟨[], [⟨some "k", some "v", "InternalError"⟩]⟩]
      = deleteObjects (afterResponse stat0 ⟨[], [⟨some "k", some "v", "InternalError"⟩]⟩) "b"
          ([⟨some "k", some "v", "InternalError"⟩].map DeleteItemError.toIdentifier) [])
  ∧ (deleteObjects stat0 "b" []
        [DeleteResponse.ok ⟨[], [⟨some "k", some "v", "AccessDenied"⟩]⟩]
      = DeleteOutcome.fatal (afterResponse stat0 ⟨[], [⟨some "k", some "v", "AccessDenied"⟩]⟩)
          "non-retryable errors while deleting") :=
  ⟨(per_item_errors_policy stat0 "b" [] ⟨[], [⟨some "k", some "v", "InternalError"⟩]⟩ []
      (by decide)).1 (by decide),
   (per_item_errors_policy stat0 "b" [] ⟨[], [⟨some "k", some "v", "AccessDenied"⟩]⟩ []
      (by decide)).2 ⟨⟨some "k", some "v", "AccessDenied"⟩, by decide, by decide⟩⟩

/-- C10: whenever deleteObjects returns to its caller (instead of dying or
recursing), the returned error is nil, so the deleter branch that checks the
returned error can never fire. -/
theorem delete_error_branch_unreachable :
    (∀ (st : Stat) (b : String) (objs : List ObjectIdentifier)
        (script : List DeleteResponse) (st2 : Stat) (e : Option AwsError),
        deleteObjects st b objs script = DeleteOutcome.returned st2 e → e = none)
  ∧ (∀ (st : Stat) (work : List (DeleteRequest × List DeleteResponse)) (st2 : Stat) (msg : String),
        deleter st work ≠ WorkerOutcome.fatalFromDeleteReturn st2 msg) := by
  refine ⟨fun st b objs script st2 e h => deleteObjects_returned_none script st b objs st2 e h, ?_⟩
  intro st work
  induction work generalizing st with
  | nil =>
    intro st2 msg h
    simp [deleter] at h
  | cons item rest ih =>
    intro st2 msg h
    obtain ⟨req, script⟩ := item
    rw [deleter] at h
    cases hd : deleteObjects { st with queued := st.queued - req.objects.length }
        req.bucket req.objects script with
    | returned st3 err =>
      rw [hd] at h
      cases err with
      | some e =>
        exact Option.noConfusion
          (deleteObjects_returned_none script _ req.bucket req.objects st3 (some e) hd)
      | none => exact ih st3 st2 msg h
    | fatal st3 m =>
      rw [hd] at h
      simp at h
    | pending st3 b3 o3 =>
      rw [hd] at h
      simp at h

/-- Witness for delete_error_branch_unreachable at concrete inputs. -/
theorem delete_error_branch_unreachable_witness :
    (none : Option AwsError) = none
  ∧ deleter stat0 [(⟨"b", []⟩, [DeleteResponse.ok ⟨[], []⟩])]
      ≠ WorkerOutcome.fatalFromDeleteReturn stat0 "m" :=
  ⟨delete_error_branch_unreachable.1 stat0 "b" [] [DeleteResponse.ok ⟨[], []⟩]
      ⟨0, 1, 0, 0, 0⟩ none (by decide),
   delete_error_branch_unreachable.2 stat0 [(⟨"b", []⟩, [DeleteResponse.ok ⟨[], []⟩])] stat0 "m"⟩

/-- C7: per listing page the lister makes one request, counts the page's
combined versions+markers as listed, maps both record kinds identically to
identifiers, pushes a batch of exactly those identifiers only when non-empty
(counting it as queued at push time), and skips empty pages with no push. -/
theorem lister_page_behavior (bucket : String) (st : Stat) (p : Page) :
    pageObjects p = p.versions.map VersionRecord.toIdentifier
        ++ p.deleteMarkers.map VersionRecord.toIdentifier
  ∧ (listerPage bucket st p).stat.requests = st.requests + 1
  ∧ (listerPage bucket st p).stat.listed = st.listed + (pageObjects p).length
  ∧ (pageObjects p ≠ [] →
      (listerPage bucket st p).batch = some ⟨bucket, pageObjects p⟩
      ∧ (listerPage bucket st p).stat.queued = st.queued + (pageObjects p).length)
  ∧ (pageObjects p = [] →
      (listerPage bucket st p).batch = none
      ∧ (listerPage bucket st p).stat.queued = st.queued) := by
  by_cases hp : (pageObjects p).length > 0
  · refine ⟨rfl, ?_, ?_, fun _ => ⟨?_, ?_⟩, fun hnil => absurd hnil (List.length_pos.mp hp)⟩
      <;> simp [listerPage, hp]
  · have hnil : pageObjects p = [] := by simpa using hp
    refine ⟨rfl, ?_, ?_, fun hne => absurd hnil hne, fun _ => ⟨?_, ?_⟩⟩
      <;> simp [listerPage, hp, hnil]

/-- Witness for lister_page_behavior at a concrete one-record page. -/
theorem lister_page_behavior_witness :
    pageObjects ⟨[⟨some "k", some "v"⟩], []⟩ ≠ []
  ∧ (listerPage "b" stat0 ⟨[⟨some "k", some "v"⟩], []⟩).batch
      = some ⟨"b", pageObjects ⟨[⟨some "k", some "v"⟩], []⟩⟩ :=
  ⟨by decide,
   ((lister_page_behavior "b" stat0 ⟨[⟨some "k", some "v"⟩], []⟩).2.2.2.1 (by decide)).1⟩

/-- C3 counterexample: a page of 1001 versions yields one batch of 1001
identifiers — the lister performs no chunking, so the provider batch limit
of 1000 is exceeded whenever a page is larger than it. -/
theorem batch_size_limit_counterexample :
    batchSizeOf (listerPage "b" stat0 oversizedPage) = 1001
  ∧ 1000 < batchSizeOf (listerPage "b" stat0 oversizedPage) := by
  have hlen : (pageObjects oversizedPage).length = 1001 := by
    unfold pageObjects oversizedPage
    rw [List.length_append, List.length_map, List.length_map, List.length_replicate]
    rfl
  have h : batchSizeOf (listerPage "b" stat0 oversizedPage) = 1001 := by
    simp [batchSizeOf, listerPage, hlen]
  exact ⟨h, by rw [h]; norm_num⟩

/-- C3 amended: a batch's size always equals its page's combined
versions+markers count — the lister never chunks — so batches stay within
the 1000-item provider limit exactly when pages do. -/
theorem batch_size_equals_page_size (bucket : String) (st : Stat) (p : Page) :
    batchSizeOf (listerPage bucket st p) = (pageObjects p).length
  ∧ ((pageObjects p).length ≤ 1000 → batchSizeOf (listerPage bucket st p) ≤ 1000) := by
  have h : batchSizeOf (listerPage bucket st p) = (pageObjects p).length := by
    by_cases hp : (pageObjects p).length > 0
    · simp [batchSizeOf, listerPage, hp]
    · simp at hp
      simp [batchSizeOf, listerPage, hp]
  exact ⟨h, fun hb => h ▸ hb⟩

/-- Witness for batch_size_equals_page_size at a concrete small page. -/
theorem batch_size_equals_page_size_witness :
    (pageObjects ⟨[⟨some "k", some "v"⟩], []⟩).length ≤ 1000
  ∧ batchSizeOf (listerPage "b" stat0 ⟨[⟨some "k", some "v"⟩], []⟩) ≤ 1000 :=
  ⟨by decide, (batch_size_equals_page_size "b" stat0 ⟨[⟨some "k", some "v"⟩], []⟩).2 (by decide)⟩

/-- One listing request is counted per page delivered, and nothing else. -/
lemma listerPages_requests (bucket : String) (pages : List Page) :
    ∀ st : Stat, (listerPages bucket st pages).1.requests = st.requests + pages.length := by
  induction pages with
  | nil => intro st; simp [listerPages]
  | cons p rest ih =>
    intro st
    have hreq : (listerPage bucket st p).stat.requests = st.requests + 1 := by
      by_cases hp : (pageObjects p).length > 0 <;> simp [listerPage, hp]
    simp only [listerPages]
    rw [ih, hreq]
    simp only [List.length_cons]
    push_cast
    ring

/-- C9: any error from the paginated listing is fatal to the run with a
message naming the offending bucket/scope target; it is never retried — for
every error value, whatever its code (including the transient one), the
outcome is fatal, and exactly one list request was made per delivered page. -/
theorem listing_error_always_fatal (bucket pfx : String) (st : Stat) (pages : List Page)
    (e : AwsError) :
    listerRun bucket pfx st pages (some e)
      = ListerOutcome.fatal (listerPages bucket st pages).1
          ("error while listing " ++ bucket ++ "/" ++ pfx ++ ": " ++ e.message)
  ∧ (listerPages bucket st pages).1.requests = st.requests + pages.length :=
  ⟨rfl, listerPages_requests bucket pages st⟩

/-- In every reachable queue state, the queued counter equals the sum of
the batch sizes sitting in the channel, and equals pushed minus popped. -/
lemma queue_inv (s : QueueState) (h : QueueReachable s) :
    s.queued = (s.buffered.sum : Int)
  ∧ s.queued = (s.pushedTotal : Int) - (s.poppedTotal : Int) := by
  unfold QueueReachable at h
  induction h with
  | refl => simp [initQueueState]
  | tail hab hbc ih =>
    obtain ⟨h1, h2⟩ := ih
    cases hbc with
    | push n hn =>
      refine ⟨?_, ?_⟩
      · show _ + _ = _
        rw [h1, List.sum_append]
        push_cast [List.sum_cons, List.sum_nil]
        ring
      · show _ + _ = _
        rw [h2]
        push_cast
        ring
    | pop n rest hr =>
      rw [hr] at h1
      refine ⟨?_, ?_⟩
      · show _ - _ = _
        rw [h1, List.sum_cons]
        push_cast
        ring
      · show _ - _ = _
        rw [h2]
        push_cast
        ring

/-- C4: in every reachable state of the work queue, the queued counter
equals the total pushed minus the total popped, is never negative, and is
zero whenever the queue is drained (no buffered batches remain). -/
theorem queued_counter_invariant (s : QueueState) (h : QueueReachable s) :
    s.queued = (s.pushedTotal : Int) - (s.poppedTotal : Int)
  ∧ 0 ≤ s.queued
  ∧ (s.buffered = [] → s.queued = 0) := by
  obtain ⟨h1, h2⟩ := queue_inv s h
  refine ⟨h2, ?_, fun hnil => ?_⟩
  · rw [h1]
    exact Int.natCast_nonneg _
  · rw [h1, hnil]
    simp

/-- Witness for queued_counter_invariant at a concrete reachable state:
push a batch of 4, pop it, land at a drained queue with queued = 0. -/
theorem queued_counter_invariant_witness :
    QueueReachable ⟨[], 0, 4, 4⟩
  ∧ (QueueState.mk [] 0 4 4).queued
      = ((QueueState.mk [] 0 4 4).pushedTotal : Int) - ((QueueState.mk [] 0 4 4).poppedTotal : Int)
  ∧ 0 ≤ (QueueState.mk [] 0 4 4).queued
  ∧ (QueueState.mk [] 0 4 4).queued = 0 := by
  have h1 : QueueStep initQueueState ⟨[4], 4, 4, 0⟩ := QueueStep.push initQueueState 4 (by norm_num)
  have h2 : QueueStep ⟨[4], 4, 4, 0⟩ ⟨[], 0, 4, 4⟩ := QueueStep.pop ⟨[4], 4, 4, 0⟩ 4 [] rfl
  have hr : QueueReachable ⟨[], 0, 4, 4⟩ :=
    Relation.ReflTransGen.tail (Relation.ReflTransGen.single h1) h2
  have h := queued_counter_invariant _ hr
  exact ⟨hr, h.1, h.2.1, h.2.2 rfl⟩

/-- Every event spawned before the coordinator's waits is a goroutine start. -/
lemma startEvents_isStart (bs ps : List String) (w : Nat) :
    ∀ e ∈ startEvents bs ps w, e.isStart = true := by
  intro e he
  simp only [startEvents, List.mem_append, List.mem_flatten, List.mem_map] at he
  rcases he with ⟨l, ⟨b, _, rfl⟩, hel⟩ | ⟨i, _, rfl⟩
  · rw [List.mem_map] at hel
    obtain ⟨p, _, rfl⟩ := hel
    rfl
  · rfl

/-- C5: the coordinator's trace is strictly phased: everything before the
waits is a goroutine start (so no queue close and no bucket delete happens
there), and from that point the trace is exactly wait-for-listers, then
close-queue, then wait-for-deleters, then the bucket-delete calls one after
another in list order (serially, in the single coordinator goroutine). -/
theorem coordinator_phase_order (bs ps : List String) (w : Nat) :
    (purgeBucketsTrace bs ps w).take (startEvents bs ps w).length = startEvents bs ps w
  ∧ (purgeBucketsTrace bs ps w).drop (startEvents bs ps w).length
      = CoordEvent.waitListers :: CoordEvent.closeQueue :: CoordEvent.waitDeleters ::
        bs.map CoordEvent.deleteBucketCall
  ∧ ∀ e ∈ startEvents bs ps w, e.isStart = true :=
  ⟨List.take_left _ _, List.drop_left _ _, startEvents_isStart bs ps w⟩

/-- Witness for coordinator_phase_order at a concrete run. -/
theorem coordinator_phase_order_witness :
    (purgeBucketsTrace ["b"] [] 1).drop (startEvents ["b"] [] 1).length
      = CoordEvent.waitListers :: CoordEvent.closeQueue :: CoordEvent.waitDeleters ::
        (["b"].map CoordEvent.deleteBucketCall)
  ∧ CoordEvent.isStart (CoordEvent.startLister "b" "") = true :=
  ⟨(coordinator_phase_order ["b"] [] 1).2.1,
   (coordinator_phase_order ["b"] [] 1).2.2 (CoordEvent.startLister "b" "") (by decide)⟩

/-- No bucket-delete event hides among the goroutine starts. -/
lemma startEvents_no_delete (bs ps : List String) (w : Nat) (b : String) :
    CoordEvent.deleteBucketCall b ∉ startEvents bs ps w := by
  intro h
  have := startEvents_isStart bs ps w _ h
  simp [CoordEvent.isStart] at this

/-- Counting deleteBucketCall events across the final map equals counting
the bucket in the argument list. -/
lemma count_delete_map (bs : List String) (b : String) :
    (bs.map CoordEvent.deleteBucketCall).count (CoordEvent.deleteBucketCall b) = bs.count b :=
  List.count_map_of_injective bs _ (fun x y h => by injection h) b

/-- C6 counterexample: supplying the same bucket twice produces two
bucket-delete calls — the coordinator does not deduplicate the bucket list,
so "a bucket is deleted at most once" fails for duplicate arguments. -/
theorem bucket_delete_dedup_counterexample :
    bucketDeleteCount (purgeBucketsTrace ["b", "b"] [] 1) "b" = 2
  ∧ 1 < bucketDeleteCount (purgeBucketsTrace ["b", "b"] [] 1) "b" := by decide

/-- C6 amended: each bucket receives exactly one bucket-delete call per
occurrence in the supplied bucket list, independent of the prefix expansion
— so overlapping prefix-expanded scopes of one bucket never multiply the
delete call, but a bucket supplied twice is deleted twice. -/
theorem bucket_delete_per_entry (bs ps : List String) (w : Nat) (b : String) :
    bucketDeleteCount (purgeBucketsTrace bs ps w) b = bs.count b := by
  unfold bucketDeleteCount purgeBucketsTrace
  rw [List.count_append, List.count_eq_zero.mpr (startEvents_no_delete bs ps w b)]
  simp [List.count_cons, count_delete_map bs b]

/-- C8 counterexample: the program defines no dry-run flag of any usual
spelling — its flags are exactly workers, prefix and region — and a run
unconditionally issues the bucket-delete call, so no mode suppresses
DeleteBatch/DeleteBucket. -/
theorem dry_run_flag_counterexample :
    "dry-run" ∉ flagNames ∧ "dryrun" ∉ flagNames ∧ "dry_run" ∉ flagNames ∧ "n" ∉ flagNames
  ∧ flagNames = ["workers", "prefix", "region"]
  ∧ CoordEvent.deleteBucketCall "b" ∈ purgeBucketsTrace ["b"] [] 1 := by decide

/-- C8 amended: no dry-run mode exists; nothing the flags can express
suppresses deletion, and every supplied bucket unconditionally receives its
bucket-delete call in every run. -/
theorem no_dry_run_flag (bs ps : List String) (w : Nat) (b : String) (hb : b ∈ bs) :
    ("dry-run" ∉ flagNames ∧ "dryrun" ∉ flagNames ∧ "dry_run" ∉ flagNames)
  ∧ CoordEvent.deleteBucketCall b ∈ purgeBucketsTrace bs ps w := by
  refine ⟨by decide, ?_⟩
  unfold purgeBucketsTrace
  refine List.mem_append_right _ ?_
  simp only [List.mem_cons, List.mem_map]
  exact Or.inr (Or.inr (Or.inr ⟨b, hb, rfl⟩))

/-- Witness for no_dry_run_flag at a concrete run. -/
theorem no_dry_run_flag_witness :
    ("b" ∈ ["b"])
  ∧ CoordEvent.deleteBucketCall "b" ∈ purgeBucketsTrace ["b"] [] 1 :=
  ⟨by decide, (no_dry_run_flag ["b"] [] 1 "b" (by decide)).2⟩
